import Mathlib

/-!
Verification development for the DoppelFlex avatar pipeline.

The definitions below are shallow embeddings of the Python functions in
`src/api/auto_rig_routes.py` and `src/api/head_mesh_generator.py`.
Machine floats are modelled as exact rationals (or reals where the source
uses transcendental functions); numpy arrays become Lean lists; a Python
`IndexError` is modelled by an `Option` result.  External collaborators
(scipy's Delaunay, MediaPipe's tessellation constant, torch/MiDaS, cv2,
trimesh's mesh operations) are modelled as explicit parameters or, where a
claim depends on their behaviour, as definitions written from the spec and
marked as such in their doc comments.
-/

namespace DoppelFlex

/-- A 3D point with exact rational coordinates (models a row of a numpy
float array). -/
structure Pt where
  x : ℚ
  y : ℚ
  z : ℚ
deriving DecidableEq, Repr

instance : Inhabited Pt := ⟨⟨0, 0, 0⟩⟩

/-- Squared Euclidean distance between two points.  The source computes
`np.linalg.norm`-style Euclidean distances, i.e. the real square root of
this quantity; comparisons `dist ≤ m` for `m ≥ 0` are encoded as
`sqDist ≤ m * m`. -/
def sqDist (p q : Pt) : ℚ :=
  (p.x - q.x) ^ 2 + (p.y - q.y) ^ 2 + (p.z - q.z) ^ 2

/-- Insert an element into a list sorted by `le` (helper for `sortBy`). -/
def insertSorted (le : α → α → Bool) (a : α) : List α → List α
  | [] => [a]
  | b :: bs => if le a b then a :: b :: bs else b :: insertSorted le a bs

/-- Insertion sort; models `np.argsort` / Python `sorted` (the claims below
only depend on the result being a permutation ordered by `le`). -/
def sortBy (le : α → α → Bool) : List α → List α
  | [] => []
  | a :: as => insertSorted le a (sortBy le as)

/-- A triangle as a triple of vertex indices. -/
abbrev Tri := Nat × Nat × Nat

/- ────────────────────────────────────────────────────────────────────────
   auto_rig_routes.py : HUMANOID_SKELETON and estimate_skeleton_from_mesh
   ──────────────────────────────────────────────────────────────────────── -/

/-- One entry of the static humanoid bone table: bone name, parent bone
name (none for the root), and the fractional position ratios. -/
structure BoneDef where
  name : String
  parent : Option String
  posRatio : Pt
deriving DecidableEq, Repr

/-- The fixed bone table `HUMANOID_SKELETON` of `auto_rig_routes.py`,
in the source's (insertion-preserving dict) order. -/
def HUMANOID_SKELETON : List BoneDef := [
  ⟨"Hips", none, ⟨1/2, 45/100, 1/2⟩⟩,
  ⟨"Spine", some "Hips", ⟨1/2, 52/100, 1/2⟩⟩,
  ⟨"Spine1", some "Spine", ⟨1/2, 58/100, 1/2⟩⟩,
  ⟨"Spine2", some "Spine1", ⟨1/2, 64/100, 1/2⟩⟩,
  ⟨"Neck", some "Spine2", ⟨1/2, 78/100, 1/2⟩⟩,
  ⟨"Head", some "Neck", ⟨1/2, 85/100, 1/2⟩⟩,
  ⟨"HeadTop_End", some "Head", ⟨1/2, 98/100, 1/2⟩⟩,
  ⟨"LeftShoulder", some "Spine2", ⟨58/100, 72/100, 1/2⟩⟩,
  ⟨"LeftArm", some "LeftShoulder", ⟨72/100, 70/100, 1/2⟩⟩,
  ⟨"LeftForeArm", some "LeftArm", ⟨82/100, 55/100, 1/2⟩⟩,
  ⟨"LeftHand", some "LeftForeArm", ⟨90/100, 42/100, 1/2⟩⟩,
  ⟨"RightShoulder", some "Spine2", ⟨42/100, 72/100, 1/2⟩⟩,
  ⟨"RightArm", some "RightShoulder", ⟨28/100, 70/100, 1/2⟩⟩,
  ⟨"RightForeArm", some "RightArm", ⟨18/100, 55/100, 1/2⟩⟩,
  ⟨"RightHand", some "RightForeArm", ⟨10/100, 42/100, 1/2⟩⟩,
  ⟨"LeftUpLeg", some "Hips", ⟨58/100, 42/100, 1/2⟩⟩,
  ⟨"LeftLeg", some "LeftUpLeg", ⟨58/100, 24/100, 1/2⟩⟩,
  ⟨"LeftFoot", some "LeftLeg", ⟨58/100, 4/100, 55/100⟩⟩,
  ⟨"LeftToeBase", some "LeftFoot", ⟨58/100, 1/100, 7/10⟩⟩,
  ⟨"RightUpLeg", some "Hips", ⟨42/100, 42/100, 1/2⟩⟩,
  ⟨"RightLeg", some "RightUpLeg", ⟨42/100, 24/100, 1/2⟩⟩,
  ⟨"RightFoot", some "RightLeg", ⟨42/100, 4/100, 55/100⟩⟩,
  ⟨"RightToeBase", some "RightFoot", ⟨42/100, 1/100, 7/10⟩⟩]

/-- A placed bone: name, parent bone name, estimated rest position. -/
structure Bone where
  name : String
  parent : Option String
  position : Pt
deriving DecidableEq, Repr

/-- Componentwise minimum of a nonempty point list (`verts.min(axis=0)`;
the empty case, on which numpy errors, defaults to the origin). -/
def bboxMin : List Pt → Pt
  | [] => ⟨0, 0, 0⟩
  | p :: ps => ps.foldl (fun a b => ⟨min a.x b.x, min a.y b.y, min a.z b.z⟩) p

/-- Componentwise maximum of a nonempty point list (`verts.max(axis=0)`). -/
def bboxMax : List Pt → Pt
  | [] => ⟨0, 0, 0⟩
  | p :: ps => ps.foldl (fun a b => ⟨max a.x b.x, max a.y b.y, max a.z b.z⟩) p

/-- `estimate_skeleton_from_mesh`: place each bone of the fixed table at
`bbox_min + bbox_size * pos_ratio`, keeping names and parents. -/
def estimate_skeleton_from_mesh (vertices : List Pt) : List Bone :=
  let bmin := bboxMin vertices
  let bmax := bboxMax vertices
  let bsize : Pt := ⟨bmax.x - bmin.x, bmax.y - bmin.y, bmax.z - bmin.z⟩
  HUMANOID_SKELETON.map (fun b =>
    ⟨b.name, b.parent,
      ⟨bmin.x + bsize.x * b.posRatio.x,
       bmin.y + bsize.y * b.posRatio.y,
       bmin.z + bsize.z * b.posRatio.z⟩⟩)

/-- The name/parent structure of a placed skeleton (positions dropped). -/
def skeletonStructure (bones : List Bone) : List (String × Option String) :=
  bones.map (fun b => (b.name, b.parent))

/-- Index of the parent of bone `i` in a name/parent table: the first
table position whose name equals bone `i`'s declared parent name. -/
def parentIdx (l : List (String × Option String)) (i : Nat) : Option Nat :=
  match (l.getD i ("", none)).2 with
  | none => none
  | some p => l.findIdx? (fun b => b.1 == p)

/-- Fuel-bounded test that following parent links from bone `i` reaches a
parentless bone (used to state acyclicity and connectedness). -/
def reachesRoot (l : List (String × Option String)) : Nat → Nat → Bool
  | 0, _ => false
  | fuel + 1, i =>
    match parentIdx l i with
    | none => true
    | some p => reachesRoot l fuel p

/- ────────────────────────────────────────────────────────────────────────
   auto_rig_routes.py : compute_skinning_weights
   ──────────────────────────────────────────────────────────────────────── -/

/-- Indices `0 .. nb-1` sorted by increasing distance (`np.argsort` of one
row of the distance matrix). -/
def argsortIdx (nb : Nat) (d : Nat → ℚ) : List Nat :=
  sortBy (fun i j => decide (d i ≤ d j)) (List.range nb)

/-- The floored inverse distance `1.0 / np.maximum(dists, 1e-6)` used for
inverse-distance weighting. -/
def invDist (q : ℚ) : ℚ := 1 / max q (1 / 1000000)

/-- One row of `compute_skinning_weights`: select the `max_influences`
closest bones by distance, weight them by floored inverse distance and,
when the weight total is positive, write the normalized weights at the
selected bone columns of an otherwise zero row. -/
def skinRow (nb : Nat) (d : Nat → ℚ) (max_influences : Nat) : List ℚ :=
  let closest := (argsortIdx nb d).take max_influences
  let total := (closest.map (fun j => invDist (d j))).sum
  if 0 < total then
    (List.range nb).map (fun j => if j ∈ closest then invDist (d j) / total else 0)
  else
    (List.range nb).map (fun _ => 0)

/-- `compute_skinning_weights`: one weight row per vertex.  The per-pair
distance function `dist` is a parameter standing for the source's
Euclidean distance (the real square root of `sqDist`, which has no exact
rational value); every theorem below holds for an arbitrary `dist`. -/
def compute_skinning_weights (vertices bonePositions : List Pt)
    (dist : Pt → Pt → ℚ) : List (List ℚ) :=
  vertices.map (fun v =>
    skinRow bonePositions.length
      (fun j => dist v (bonePositions.getD j default)) 4)

/- ────────────────────────────────────────────────────────────────────────
   auto_rig_routes.py : build_rigged_gltf
   ──────────────────────────────────────────────────────────────────────── -/

/-- Per-vertex joint-weight truncation of `build_rigged_gltf`: take the
nonzero columns of the weight row, sort them by descending weight, keep at
most 4, zero-pad to a 4-vector, and renormalize when the total is
positive. -/
def jointWeightsRow (r : List ℚ) : List ℚ :=
  let nz := (List.range r.length).filter (fun j => decide (r.getD j 0 ≠ 0))
  let sorted := sortBy (fun i j => decide (r.getD j 0 ≤ r.getD i 0)) nz
  let vals := (sorted.take 4).map (fun j => r.getD j 0)
  let padded := vals ++ List.replicate (4 - vals.length) 0
  let total := padded.sum
  if 0 < total then padded.map (fun w => w / total) else padded

/-- Per-vertex joint-index 4-vector of `build_rigged_gltf` (the selected
bone column indices, zero-padded). -/
def jointIndicesRow (r : List ℚ) : List Nat :=
  let nz := (List.range r.length).filter (fun j => decide (r.getD j 0 ≠ 0))
  let sorted := sortBy (fun i j => decide (r.getD j 0 ≤ r.getD i 0)) nz
  let sel := sorted.take 4
  sel ++ List.replicate (4 - sel.length) 0

/-- A glTF node as far as the claims are concerned: a name, a translation,
and a children list of node indices. -/
structure GltfNode where
  name : String
  translation : Pt
  children : List Nat
deriving DecidableEq, Repr

/-- The parts of the glTF dictionary produced by `build_rigged_gltf` that
the claims refer to. -/
structure Gltf where
  nodes : List GltfNode
  joints : List Nat
  skeleton : Nat
  bufferViews : List (Nat × Nat)
  bufferByteLength : Nat
  jointWeights : List (List ℚ)
  jointIndices : List (List Nat)
deriving Repr

/-- The node index `bone_to_node[name]` assigned by `build_rigged_gltf`:
`bone_node_offset + i` with `bone_node_offset = 2` and `i` the bone's
position in the bone-name order. -/
def boneToNode (bones : List Bone) (name : String) : Option Nat :=
  (bones.findIdx? (fun b => b.name == name)).map (fun i => 2 + i)

/-- `build_rigged_gltf`, restricted to the fields the claims mention.
Byte lengths follow the source's packing exactly: positions and normals
are 3 float32 per vertex (12 bytes), indices are uint32 (4 bytes each),
joint indices are 4 uint16 per vertex (8 bytes), joint weights 4 float32
per vertex (16 bytes), inverse-bind matrices 16 float32 per bone
(64 bytes); each section's byte offset is the buffer length accumulated so
far, and the declared buffer byteLength is the final accumulated length. -/
def build_rigged_gltf (vertices : List Pt) (faces : List Tri)
    (bones : List Bone) (weights : List (List ℚ)) : Gltf :=
  let num_verts := vertices.length
  let num_bones := bones.length
  let indicesLen := 3 * faces.length
  let joint_indices := (List.range num_verts).map
    (fun v => jointIndicesRow (weights.getD v []))
  let joint_weights := (List.range num_verts).map
    (fun v => jointWeightsRow (weights.getD v []))
  let pos_offset := 0
  let pos_length := 12 * num_verts
  let norm_offset := pos_offset + pos_length
  let norm_length := 12 * num_verts
  let idx_offset := norm_offset + norm_length
  let idx_length := 4 * indicesLen
  let joints_offset := idx_offset + idx_length
  let joints_length := 8 * num_verts
  let weights_offset := joints_offset + joints_length
  let weights_length := 16 * num_verts
  let ibm_offset := weights_offset + weights_length
  let ibm_length := 64 * num_bones
  let joint_node_indices := (List.range num_bones).map (fun i => 2 + i)
  let bone_nodes := bones.map (fun b =>
    let rel : Pt :=
      match b.parent with
      | some pname =>
        match bones.find? (fun o => o.name == pname) with
        | some pb => ⟨b.position.x - pb.position.x,
                      b.position.y - pb.position.y,
                      b.position.z - pb.position.z⟩
        | none => b.position
      | none => b.position
    let children := (bones.filter (fun o => o.parent == some b.name)).filterMap
      (fun o => boneToNode bones o.name)
    ⟨b.name, rel, children⟩)
  let mesh_node : GltfNode := ⟨"AvatarMesh", ⟨0, 0, 0⟩, []⟩
  let root_bone_idx := (boneToNode bones "Hips").getD 2
  { nodes := mesh_node :: bone_nodes
    joints := joint_node_indices
    skeleton := root_bone_idx
    bufferViews := [(pos_offset, pos_length), (norm_offset, norm_length),
                    (idx_offset, idx_length), (joints_offset, joints_length),
                    (weights_offset, weights_length), (ibm_offset, ibm_length)]
    bufferByteLength := ibm_offset + ibm_length
    jointWeights := joint_weights
    jointIndices := joint_indices }

/- ────────────────────────────────────────────────────────────────────────
   head_mesh_generator.py : scaling constants
   ──────────────────────────────────────────────────────────────────────── -/

def X_SCALE : ℚ := 24 / 100
def Y_SCALE : ℚ := 30 / 100
def Y_OFFSET : ℚ := 85 / 100
def Z_SCALE : ℚ := 15 / 100
def Z_OFFSET : ℚ := 12 / 100

/- ────────────────────────────────────────────────────────────────────────
   head_mesh_generator.py : triangulation
   ──────────────────────────────────────────────────────────────────────── -/

/-- Orient an edge with the smaller endpoint first (the source's
`(a, b) if a < b else (b, a)`). -/
def normEdge (e : Nat × Nat) : Nat × Nat :=
  if e.1 < e.2 then e else (e.2, e.1)

/-- All unordered pairs of elements of a list, in order. -/
def allPairs : List Nat → List (Nat × Nat)
  | [] => []
  | a :: as => as.map (fun b => (a, b)) ++ allPairs as

/-- Sort a triangle's three indices ascending (the source's
`tuple(sorted((v, n1, n2)))`). -/
def sortTriple (t : Tri) : Tri :=
  let l := sortBy (fun a b => decide (a ≤ b)) [t.1, t.2.1, t.2.2]
  (l.getD 0 0, l.getD 1 0, l.getD 2 0)

/-- `build_triangles_from_tessellation`: deduplicate the undirected edge
set, build the adjacency lists, and emit one sorted deduplicated triangle
for every vertex together with a mutually adjacent pair of its
neighbours. -/
def build_triangles_from_tessellation (tessellation_edges : List (Nat × Nat)) :
    List Tri :=
  let es := ((tessellation_edges.filter (fun e => e.1 != e.2)).map normEdge).dedup
  let vertsIn := ((es.map (fun e => e.1)) ++ (es.map (fun e => e.2))).dedup
  let nbrs := fun v =>
    ((es.filter (fun e => e.1 == v)).map (fun e => e.2)) ++
    ((es.filter (fun e => e.2 == v)).map (fun e => e.1))
  (vertsIn.flatMap (fun v =>
    let ns := sortBy (fun a b => decide (a ≤ b)) (nbrs v)
    (allPairs ns).filterMap (fun p =>
      if p.2 ∈ nbrs p.1 then some (sortTriple (v, p.1, p.2)) else none))).dedup

/-- Validity of a triangle's indices against a vertex count (indexing a
numpy array out of this range raises `IndexError`). -/
def validTri (n : Nat) (f : Tri) : Bool :=
  decide (f.1 < n) && decide (f.2.1 < n) && decide (f.2.2 < n)

/-- The edge test of `filter_large_triangles` for one edge: Euclidean
length at most `m`, encoded on squares (`‖a-b‖ ≤ m ↔ sqDist a b ≤ m*m`
for the nonnegative thresholds the source uses). -/
def edgeWithin (a b : Pt) (m : ℚ) : Bool := decide (sqDist a b ≤ m * m)

/-- A triangle passes `filter_large_triangles` when all three of its edges
are within the threshold. -/
def triWithin (verts : List Pt) (f : Tri) (m : ℚ) : Bool :=
  let p0 := verts.getD f.1 default
  let p1 := verts.getD f.2.1 default
  let p2 := verts.getD f.2.2 default
  edgeWithin p0 p1 m && edgeWithin p1 p2 m && edgeWithin p2 p0 m

/-- `filter_large_triangles`: `none` models the `IndexError` raised when a
face index is out of range; otherwise keep the triangles whose edges are
all within `max_edge` — and, per the source's final line, return the input
faces unchanged when no triangle survives. -/
def filter_large_triangles (verts : List Pt) (faces : List Tri) (max_edge : ℚ) :
    Option (List Tri) :=
  if faces.all (validTri verts.length) then
    let good := faces.filter (fun f => triWithin verts f max_edge)
    some (if good.isEmpty then faces else good)
  else none

/-- `triangulate_face`.  `tess` is the externally imported
`FACEMESH_TESSELATION` edge list (`none` when MediaPipe is unavailable);
`delaunayFaces` stands for the triangles scipy's 2D Delaunay returns on
the projected points (scipy is an external collaborator).  A `none` result
models an uncaught exception. -/
def triangulate_face (tess : Option (List (Nat × Nat))) (face_points : List Pt)
    (delaunayFaces : List Tri) : Option (List Tri) :=
  let fallback := filter_large_triangles face_points delaunayFaces (8 / 100)
  match tess with
  | some edges =>
    match filter_large_triangles face_points
        (build_triangles_from_tessellation edges) (9 / 100) with
    | none => none
    | some fs => if 500 < fs.length then some fs else fallback
  | none => fallback

/- ────────────────────────────────────────────────────────────────────────
   head_mesh_generator.py : refine_face_depth
   ──────────────────────────────────────────────────────────────────────── -/

/-- Minimum of a rational list (`depth_map.min()`; 0 on the empty map). -/
def listMinQ : List ℚ → ℚ
  | [] => 0
  | q :: qs => qs.foldl min q

/-- Maximum of a rational list (`depth_map.max()`). -/
def listMaxQ : List ℚ → ℚ
  | [] => 0
  | q :: qs => qs.foldl max q

/-- Clamp a rational to `[lo, hi]` (`np.clip`). -/
def clipQ (q lo hi : ℚ) : ℚ := min (max q lo) hi

/-- Truncate a clamped nonnegative rational to a pixel index (`int(...)`
after the clip to `[0, w-1]`). -/
def toPixel (q : ℚ) : Nat := (Int.floor q).toNat

/-- `refine_face_depth`.  The external effects are parameters: `modelLoad`
stands for the torch import, the two `torch.hub.load` calls and the
transform (any of which may raise); `img` is the `cv2.imread` result
(`none` when the image is unreadable); `inference` is the MiDaS prediction
resized to the image (which may also raise).  Each failure takes the
corresponding early `return vertices` / `except` branch of the source. -/
def refine_face_depth (vertices : List Pt) (num_face_verts : Nat)
    (depth_strength : ℚ) (modelLoad : Except String Unit)
    (img : Option (Nat × Nat)) (inference : Except String (List (List ℚ))) :
    List Pt :=
  match modelLoad with
  | Except.error _ => vertices
  | Except.ok _ =>
    match img with
    | none => vertices
    | some hw =>
      match inference with
      | Except.error _ => vertices
      | Except.ok depth_map =>
        let flat := depth_map.flatten
        let d_min := listMinQ flat
        let d_max := listMaxQ flat
        if d_max - d_min < 1 / 1000000 then vertices
        else
          let h := hw.1
          let w := hw.2
          vertices.mapIdx (fun vi p =>
            if vi < num_face_verts then
              let lm_x := p.x / X_SCALE + 1 / 2
              let lm_y := 1 / 2 - (p.y - Y_OFFSET) / Y_SCALE
              let px := toPixel (clipQ (lm_x * w) 0 (w - 1))
              let py := toPixel (clipQ (lm_y * h) 0 (h - 1))
              let depth_val := ((depth_map.getD py []).getD px 0 - d_min) / (d_max - d_min)
              ⟨p.x, p.y, p.z + (depth_val - 1 / 2) * depth_strength⟩
            else p)

/- ────────────────────────────────────────────────────────────────────────
   head_mesh_generator.py : generate_back_shell
   ──────────────────────────────────────────────────────────────────────── -/

/-- A 3D point with real coordinates, for the shell generator whose source
uses the transcendental `np.sin`/`np.cos`/`np.pi`. -/
structure PtR where
  x : ℝ
  y : ℝ
  z : ℝ

/-- Minimum of a real list (`arr.min()` on a nonempty array; 0 default). -/
noncomputable def listMinR : List ℝ → ℝ
  | [] => 0
  | q :: qs => qs.foldl min q

/-- Maximum of a real list (`arr.max()`). -/
noncomputable def listMaxR : List ℝ → ℝ
  | [] => 0
  | q :: qs => qs.foldl max q

/-- Mean of a real list (`arr.mean()`). -/
noncomputable def listMeanR (l : List ℝ) : ℝ := l.sum / l.length

/-- The vertex of `generate_back_shell` at grid cell `(i, j)`, before and
after the inward flattening applied past the depth threshold. -/
noncomputable def backShellVertex (cx cy rx ry rz bcz : ℝ) (lat lon i j : Nat) :
    PtR :=
  let theta := Real.pi * i / lat
  let phi := Real.pi + Real.pi * j / lon
  let x := rx * Real.sin theta * Real.cos phi + cx
  let y := ry * Real.cos theta + cy
  let z0 := rz * Real.sin theta * Real.sin phi + bcz
  let z := if z0 < bcz - rz * (55 / 100)
    then z0 * (92 / 100) + (bcz - rz * (55 / 100)) * (8 / 100)
    else z0
  ⟨x, y, z⟩

/-- `generate_back_shell`: a half-ellipsoid sampled on a
latitude/longitude grid, sized from the face extents and centred behind
the face's minimum depth; two triangles per grid cell. -/
noncomputable def generate_back_shell (face_points : List PtR)
    (resolution : Nat) : List PtR × List Tri :=
  let cx := listMeanR (face_points.map (fun p => p.x))
  let cy := listMeanR (face_points.map (fun p => p.y))
  let face_width := listMaxR (face_points.map (fun p => p.x)) -
    listMinR (face_points.map (fun p => p.x))
  let face_height := listMaxR (face_points.map (fun p => p.y)) -
    listMinR (face_points.map (fun p => p.y))
  let face_z_min := listMinR (face_points.map (fun p => p.z))
  let rx := max (face_width * (60 / 100)) (4 / 100)
  let ry := max (face_height * (58 / 100)) (5 / 100)
  let rz := max (face_width * (55 / 100)) (4 / 100)
  let bcz := face_z_min - rz * (18 / 100)
  let lat := max 8 (resolution / 2)
  let lon := max 16 resolution
  let vertices := (List.range (lat + 1)).flatMap (fun i =>
    (List.range (lon + 1)).map (fun j =>
      backShellVertex cx cy rx ry rz bcz lat lon i j))
  let faces := (List.range lat).flatMap (fun i =>
    (List.range lon).flatMap (fun j =>
      let v0 := i * (lon + 1) + j
      let v1 := v0 + 1
      let v2 := (i + 1) * (lon + 1) + j
      let v3 := v2 + 1
      [(v0, v2, v1), (v1, v2, v3)]))
  (vertices, faces)

/- ────────────────────────────────────────────────────────────────────────
   head_mesh_generator.py : cleanup_mesh
   The five operations are methods of trimesh (an external library, not
   part of this repository), so each is modelled from the spec; only their
   call order in cleanup_mesh is this repository's code.
   ──────────────────────────────────────────────────────────────────────── -/

/-- A mesh as `cleanup_mesh` sees it: vertices, index-triple faces, and
per-face normals. -/
structure MeshM where
  verts : List Pt
  faces : List Tri
  normals : List Pt
deriving Repr

/-- Cross product of `(b - a)` and `(c - a)`, the (unnormalized) normal of
triangle `a b c`; it is zero exactly for zero-area triangles. -/
def triCross (a b c : Pt) : Pt :=
  let u : Pt := ⟨b.x - a.x, b.y - a.y, b.z - a.z⟩
  let v : Pt := ⟨c.x - a.x, c.y - a.y, c.z - a.z⟩
  ⟨u.y * v.z - u.z * v.y, u.z * v.x - u.x * v.z, u.x * v.y - u.y * v.x⟩

/-- Modelled from the spec: `mesh.remove_degenerate_faces()` (trimesh is
not in this repository) — "removes degenerate (near-zero-area)
triangles".  A triangle is kept when its area is nonzero. -/
def remove_degenerate_faces (m : MeshM) : MeshM :=
  { m with faces := m.faces.filter (fun f =>
      decide (triCross (m.verts.getD f.1 default) (m.verts.getD f.2.1 default)
        (m.verts.getD f.2.2 default) ≠ (⟨0, 0, 0⟩ : Pt))) }

/-- Keep the first occurrence of each key (helper for duplicate-face
removal). -/
def dedupByKey (key : α → β) [DecidableEq β] : List α → List β → List α
  | [], _ => []
  | a :: as, seen =>
    if key a ∈ seen then dedupByKey key as seen
    else a :: dedupByKey key as (key a :: seen)

/-- Modelled from the spec: `mesh.remove_duplicate_faces()` — "removes
exact duplicate triangles" (two faces are duplicates when they contain the
same index triple). -/
def remove_duplicate_faces (m : MeshM) : MeshM :=
  { m with faces := dedupByKey sortTriple m.faces [] }

/-- Modelled from the spec: `mesh.remove_unreferenced_vertices()` —
"removes vertices referenced by no face", remapping face indices. -/
def remove_unreferenced_vertices (m : MeshM) : MeshM :=
  let refs := m.faces.flatMap (fun f => [f.1, f.2.1, f.2.2])
  let kept := (List.range m.verts.length).filter (fun i => i ∈ refs)
  let remap := fun i => kept.indexOf i
  { verts := kept.map (fun i => m.verts.getD i default)
    faces := m.faces.map (fun f => (remap f.1, remap f.2.1, remap f.2.2))
    normals := m.normals }

/-- Two vertex indices are within merging distance when their squared
distance is at most `eps ^ 2`. -/
def withinEps (ps : List Pt) (eps : ℚ) (i j : Nat) : Bool :=
  decide (sqDist (ps.getD i default) (ps.getD j default) ≤ eps * eps)

/-- Fuel-bounded transitive closure of the `withinEps` relation (vertex
clusters chained through intermediate vertices, as a rounding-grid merge
produces). -/
def linkedFuel (ps : List Pt) (eps : ℚ) : Nat → Nat → Nat → Bool
  | 0, i, j => i == j
  | fuel + 1, i, j =>
    i == j || (List.range ps.length).any (fun k =>
      withinEps ps eps i k && linkedFuel ps eps fuel k j)

/-- The representative of a vertex's merge cluster: the smallest index it
is linked to. -/
def mergeRep (ps : List Pt) (eps : ℚ) (i : Nat) : Nat :=
  ((List.range ps.length).find? (fun j => linkedFuel ps eps ps.length i j)).getD i

/-- Modelled from the spec: `mesh.merge_vertices()` — "merges vertices
within an epsilon distance": every cluster of transitively eps-close
vertices collapses to its smallest-index member, and faces are remapped
accordingly. -/
def merge_vertices (m : MeshM) (eps : ℚ) : MeshM :=
  let rep := mergeRep m.verts eps
  let kept := (List.range m.verts.length).filter (fun i => rep i == i)
  let remap := fun i => kept.indexOf (rep i)
  { verts := kept.map (fun i => m.verts.getD i default)
    faces := m.faces.map (fun f => (remap f.1, remap f.2.1, remap f.2.2))
    normals := m.normals }

/-- Modelled from the spec: `mesh.fix_normals()` — "recomputes consistent
outward normals": the normals are recomputed from the current vertices and
faces; vertices and faces are unchanged. -/
def fix_normals (m : MeshM) : MeshM :=
  { m with normals := m.faces.map (fun f =>
      triCross (m.verts.getD f.1 default) (m.verts.getD f.2.1 default)
        (m.verts.getD f.2.2 default)) }

/-- `cleanup_mesh`, with the operations applied in the source's order:
degenerate faces, duplicate faces, unreferenced vertices, vertex merge,
normals. -/
def cleanup_mesh (m : MeshM) (eps : ℚ) : MeshM :=
  fix_normals (merge_vertices
    (remove_unreferenced_vertices (remove_duplicate_faces
      (remove_degenerate_faces m))) eps)

/-- The cleanup pipeline in the order the spec sentence claims (merge
before unreferenced-vertex removal); written from the spec's words for
comparison against `cleanup_mesh`. -/
def cleanup_spec_order (m : MeshM) (eps : ℚ) : MeshM :=
  fix_normals (remove_unreferenced_vertices
    (merge_vertices (remove_duplicate_faces
      (remove_degenerate_faces m)) eps))

/- ────────────────────────────────────────────────────────────────────────
   Helper lemmas
   ──────────────────────────────────────────────────────────────────────── -/

theorem insertSorted_perm (le : α → α → Bool) (a : α) (l : List α) :
    List.Perm (insertSorted le a l) (a :: l) := by
  induction l with
  | nil => simp [insertSorted]
  | cons b bs ih =>
    simp only [insertSorted]
    split
    · exact List.Perm.refl _
    · exact (ih.cons b).trans (List.Perm.swap a b bs)

theorem sortBy_perm (le : α → α → Bool) (l : List α) : List.Perm (sortBy le l) l := by
  induction l with
  | nil => simp [sortBy]
  | cons a as ih =>
    exact (insertSorted_perm le a (sortBy le as)).trans (ih.cons a)

theorem argsortIdx_perm (nb : Nat) (d : Nat → ℚ) :
    List.Perm (argsortIdx nb d) (List.range nb) :=
  sortBy_perm _ _

/-- Elements of a nonnegative list with nonpositive sum are all zero. -/
theorem all_zero_of_sum_nonpos (l : List ℚ) (h0 : ∀ w ∈ l, 0 ≤ w)
    (hs : l.sum ≤ 0) : ∀ w ∈ l, w = 0 := by
  induction l with
  | nil => simp
  | cons a as ih =>
    have ha : 0 ≤ a := h0 a (by simp)
    have has : 0 ≤ as.sum :=
      List.sum_nonneg (fun w hw => h0 w (by simp [hw]))
    have hsum : a + as.sum ≤ 0 := by simpa using hs
    have ha0 : a = 0 := le_antisymm (by linarith) ha
    intro w hw
    rcases List.mem_cons.mp hw with h | h
    · simpa [h] using ha0
    · exact ih (fun w hw => h0 w (by simp [hw])) (by linarith) w h

/-- Sum of a function mapped over `List.range` as a `Finset.range` sum. -/
theorem sum_range_map (f : Nat → ℚ) (n : Nat) :
    ((List.range n).map f).sum = ∑ i ∈ Finset.range n, f i := by
  induction n with
  | zero => simp
  | succ m ih => simp [List.range_succ, Finset.sum_range_succ, ih]

/-- Mapping a division distributes over the list sum. -/
theorem sum_map_div (l : List α) (f : α → ℚ) (c : ℚ) :
    (l.map (fun a => f a / c)).sum = (l.map f).sum / c := by
  induction l with
  | nil => simp
  | cons a as ih => simp [ih, add_div]

/- ────────────────────────────────────────────────────────────────────────
   Joint-weight truncation lemmas (for C3)
   ──────────────────────────────────────────────────────────────────────── -/

/-- Elements of a zero-padded value selection from a nonnegative row are
nonnegative. -/
theorem padded_mem_nonneg (r : List ℚ) (hr : ∀ w ∈ r, 0 ≤ w) (l : List Nat)
    (hl : ∀ j ∈ l, j < r.length) (k t : Nat) :
    ∀ w ∈ (l.take t).map (fun j => r.getD j 0) ++ List.replicate k (0 : ℚ),
      0 ≤ w := by
  intro w hw
  rcases List.mem_append.mp hw with h | h
  · obtain ⟨j, hj, rfl⟩ := List.mem_map.mp h
    have hjl : j < r.length := hl j (List.mem_of_mem_take hj)
    rw [List.getD_eq_getElem r 0 hjl]
    exact hr _ (List.getElem_mem hjl)
  · rw [List.eq_of_mem_replicate h]

/-- Indices produced by the nonzero-column sort of `jointWeightsRow` are
valid row positions. -/
theorem jw_sorted_lt (r : List ℚ) :
    ∀ j ∈ sortBy (fun i j => decide (r.getD j 0 ≤ r.getD i 0))
      ((List.range r.length).filter (fun j => decide (r.getD j 0 ≠ 0))),
      j < r.length := by
  intro j hj
  have h1 := (sortBy_perm _ _).mem_iff.mp hj
  have h2 := (List.mem_filter.mp h1).1
  simpa using h2

theorem jwRow_length (r : List ℚ) : (jointWeightsRow r).length = 4 := by
  simp only [jointWeightsRow]
  split <;>
    simp only [List.length_map, List.length_append, List.length_take,
      List.length_replicate] <;>
    omega

theorem jwRow_nonneg (r : List ℚ) (hr : ∀ w ∈ r, 0 ≤ w) :
    ∀ w ∈ jointWeightsRow r, 0 ≤ w := by
  have hpad := fun k => padded_mem_nonneg r hr _ (jw_sorted_lt r) k 4
  intro w hw
  simp only [jointWeightsRow] at hw
  split at hw
  · obtain ⟨w', hw', rfl⟩ := List.mem_map.mp hw
    exact div_nonneg (hpad _ w' hw') (by linarith)
  · exact hpad _ w hw

theorem jwRow_sum (r : List ℚ) (hr : ∀ w ∈ r, 0 ≤ w) :
    (jointWeightsRow r).sum = 1 ∨ ∀ w ∈ jointWeightsRow r, w = 0 := by
  have hpad := fun k => padded_mem_nonneg r hr _ (jw_sorted_lt r) k 4
  simp only [jointWeightsRow]
  split
  · left
    rw [sum_map_div _ (fun w => w) _]
    simp only [List.map_id']
    exact div_self (by linarith)
  · right
    intro w hw
    exact all_zero_of_sum_nonpos _ (hpad _) (by linarith) w hw

/- ────────────────────────────────────────────────────────────────────────
   C4 : skeleton structure
   ──────────────────────────────────────────────────────────────────────── -/

/-- C4: for every nonempty input vertex set, the skeleton produced by
`estimate_skeleton_from_mesh` from the fixed bone table has exactly one
parentless bone, every other bone's parent occurs strictly earlier in the
table order, and following parent links from any bone reaches the root
(so the parent relation is acyclic and the hierarchy is one connected
tree). -/
theorem c4_skeleton_single_rooted_tree (verts : List Pt) (_hne : verts ≠ []) :
    ((skeletonStructure (estimate_skeleton_from_mesh verts)).filter
      (fun b => b.2.isNone)).length = 1 ∧
    (∀ i < (skeletonStructure (estimate_skeleton_from_mesh verts)).length,
      ∀ p, parentIdx (skeletonStructure (estimate_skeleton_from_mesh verts)) i
        = some p → p < i) ∧
    (∀ i < (skeletonStructure (estimate_skeleton_from_mesh verts)).length,
      reachesRoot (skeletonStructure (estimate_skeleton_from_mesh verts))
        (skeletonStructure (estimate_skeleton_from_mesh verts)).length i
        = true) := by
  have hs : skeletonStructure (estimate_skeleton_from_mesh verts)
      = HUMANOID_SKELETON.map (fun b => (b.name, b.parent)) := by
    simp [skeletonStructure, estimate_skeleton_from_mesh, List.map_map]
  rw [hs]
  decide

/-- Witness for C4 at a concrete one-vertex input. -/
theorem c4_skeleton_single_rooted_tree_witness :
    ((skeletonStructure (estimate_skeleton_from_mesh [⟨0, 0, 0⟩])).filter
      (fun b => b.2.isNone)).length = 1 ∧
    (∀ i < (skeletonStructure (estimate_skeleton_from_mesh [⟨0, 0, 0⟩])).length,
      ∀ p, parentIdx (skeletonStructure (estimate_skeleton_from_mesh [⟨0, 0, 0⟩])) i
        = some p → p < i) ∧
    (∀ i < (skeletonStructure (estimate_skeleton_from_mesh [⟨0, 0, 0⟩])).length,
      reachesRoot (skeletonStructure (estimate_skeleton_from_mesh [⟨0, 0, 0⟩]))
        (skeletonStructure (estimate_skeleton_from_mesh [⟨0, 0, 0⟩])).length i
        = true) :=
  c4_skeleton_single_rooted_tree [⟨0, 0, 0⟩] (by decide)

/- ────────────────────────────────────────────────────────────────────────
   C2 : buffer layout
   ──────────────────────────────────────────────────────────────────────── -/

/-- C2: in every asset produced by `build_rigged_gltf`, every bufferView
lies within the declared buffer byteLength, the first view starts at
offset 0 and each following view starts exactly where the previous one
ends, and the declared byteLength equals the total length of the packed
sections (positions, normals, indices, joint indices, joint weights,
inverse-bind matrices). -/
theorem c2_buffer_views_consistent (vertices : List Pt) (faces : List Tri)
    (bones : List Bone) (weights : List (List ℚ)) :
    (∀ v ∈ (build_rigged_gltf vertices faces bones weights).bufferViews,
      v.1 + v.2 ≤ (build_rigged_gltf vertices faces bones weights).bufferByteLength) ∧
    ((build_rigged_gltf vertices faces bones weights).bufferViews.getD 0 (0, 0)).1 = 0 ∧
    (∀ k, k + 1 < (build_rigged_gltf vertices faces bones weights).bufferViews.length →
      ((build_rigged_gltf vertices faces bones weights).bufferViews.getD (k + 1) (0, 0)).1
        = ((build_rigged_gltf vertices faces bones weights).bufferViews.getD k (0, 0)).1
          + ((build_rigged_gltf vertices faces bones weights).bufferViews.getD k (0, 0)).2) ∧
    (build_rigged_gltf vertices faces bones weights).bufferByteLength
      = 12 * vertices.length + 12 * vertices.length + 4 * (3 * faces.length)
        + 8 * vertices.length + 16 * vertices.length + 64 * bones.length := by
  refine ⟨?_, ?_, ?_, ?_⟩
  · intro v hv
    simp only [build_rigged_gltf, List.mem_cons, List.mem_singleton,
      List.not_mem_nil, or_false] at hv ⊢
    rcases hv with h | h | h | h | h | h <;> subst h <;> omega
  · simp [build_rigged_gltf]
  · intro k hk
    simp only [build_rigged_gltf, List.length_cons, List.length_nil] at hk
    rcases k with _ | _ | _ | _ | _ | k
    · simp [build_rigged_gltf]
    · simp [build_rigged_gltf]
    · simp [build_rigged_gltf]
    · simp [build_rigged_gltf]
    · simp [build_rigged_gltf]
    · omega
  · simp [build_rigged_gltf]

/-- Witness for C2 at a concrete one-triangle, one-bone input. -/
theorem c2_buffer_views_consistent_witness :
    (∀ v ∈ (build_rigged_gltf [⟨0, 0, 0⟩] [(0, 0, 0)] [⟨"Hips", none, ⟨0, 0, 0⟩⟩] [[1]]).bufferViews,
      v.1 + v.2 ≤ (build_rigged_gltf [⟨0, 0, 0⟩] [(0, 0, 0)] [⟨"Hips", none, ⟨0, 0, 0⟩⟩] [[1]]).bufferByteLength) ∧
    ((build_rigged_gltf [⟨0, 0, 0⟩] [(0, 0, 0)] [⟨"Hips", none, ⟨0, 0, 0⟩⟩] [[1]]).bufferViews.getD 0 (0, 0)).1 = 0 ∧
    (∀ k, k + 1 < (build_rigged_gltf [⟨0, 0, 0⟩] [(0, 0, 0)] [⟨"Hips", none, ⟨0, 0, 0⟩⟩] [[1]]).bufferViews.length →
      ((build_rigged_gltf [⟨0, 0, 0⟩] [(0, 0, 0)] [⟨"Hips", none, ⟨0, 0, 0⟩⟩] [[1]]).bufferViews.getD (k + 1) (0, 0)).1
        = ((build_rigged_gltf [⟨0, 0, 0⟩] [(0, 0, 0)] [⟨"Hips", none, ⟨0, 0, 0⟩⟩] [[1]]).bufferViews.getD k (0, 0)).1
          + ((build_rigged_gltf [⟨0, 0, 0⟩] [(0, 0, 0)] [⟨"Hips", none, ⟨0, 0, 0⟩⟩] [[1]]).bufferViews.getD k (0, 0)).2) ∧
    (build_rigged_gltf [⟨0, 0, 0⟩] [(0, 0, 0)] [⟨"Hips", none, ⟨0, 0, 0⟩⟩] [[1]]).bufferByteLength
      = 12 * 1 + 12 * 1 + 4 * (3 * 1) + 8 * 1 + 16 * 1 + 64 * 1 :=
  c2_buffer_views_consistent [⟨0, 0, 0⟩] [(0, 0, 0)] [⟨"Hips", none, ⟨0, 0, 0⟩⟩] [[1]]

/- ────────────────────────────────────────────────────────────────────────
   C1 : glTF referential consistency (code bug)
   ──────────────────────────────────────────────────────────────────────── -/

/-- C1 (code bug): on a concrete two-vertex mesh with the standard
23-bone skeleton, the asset built by `build_rigged_gltf` has 24 nodes
(valid indices 0..23), yet its skin's joints list contains the node index
24 — out of bounds — and its skin's `skeleton` index is 2, which is the
node of the bone "Spine" rather than the intended root "Hips": the comment
`bone_node_offset = 2  # mesh node=0, skin root node=1` assumes a separate
skin-root node that `all_nodes = [mesh_node] + bone_nodes` never inserts,
so every bone reference is off by one. -/
theorem c1_gltf_joint_indices_out_of_bounds :
    (build_rigged_gltf [⟨0, 0, 0⟩, ⟨1, 1, 1⟩] [(0, 1, 0)]
        (estimate_skeleton_from_mesh [⟨0, 0, 0⟩, ⟨1, 1, 1⟩]) []).nodes.length = 24 ∧
    24 ∈ (build_rigged_gltf [⟨0, 0, 0⟩, ⟨1, 1, 1⟩] [(0, 1, 0)]
        (estimate_skeleton_from_mesh [⟨0, 0, 0⟩, ⟨1, 1, 1⟩]) []).joints ∧
    (build_rigged_gltf [⟨0, 0, 0⟩, ⟨1, 1, 1⟩] [(0, 1, 0)]
        (estimate_skeleton_from_mesh [⟨0, 0, 0⟩, ⟨1, 1, 1⟩]) []).skeleton = 2 ∧
    ((build_rigged_gltf [⟨0, 0, 0⟩, ⟨1, 1, 1⟩] [(0, 1, 0)]
        (estimate_skeleton_from_mesh [⟨0, 0, 0⟩, ⟨1, 1, 1⟩]) []).nodes.getD 2
        ⟨"", ⟨0, 0, 0⟩, []⟩).name = "Spine" := by
  decide

/- ────────────────────────────────────────────────────────────────────────
   C7 : depth refinement failure is a no-op passthrough
   ──────────────────────────────────────────────────────────────────────── -/

/-- C7: whenever `refine_face_depth` fails to obtain a usable depth map —
the model load raises, the image is unreadable, the inference raises, or
the depth map is near-constant — it returns the input vertex array
unchanged (each failure takes an early `return vertices` or the enclosing
`except` branch, so no exception escapes). -/
theorem c7_refine_face_depth_failure_is_passthrough (vertices : List Pt)
    (num_face_verts : Nat) (depth_strength : ℚ) (modelLoad : Except String Unit)
    (img : Option (Nat × Nat)) (inference : Except String (List (List ℚ)))
    (h : (∃ e, modelLoad = Except.error e) ∨ img = none ∨
      (∃ e, inference = Except.error e) ∨
      (∃ dm, inference = Except.ok dm ∧
        listMaxQ dm.flatten - listMinQ dm.flatten < 1 / 1000000)) :
    refine_face_depth vertices num_face_verts depth_strength modelLoad img
      inference = vertices := by
  rcases modelLoad with e | u
  · rfl
  · rcases img with _ | hw
    · rfl
    · rcases inference with e | dm
      · rfl
      · rcases h with ⟨e, he⟩ | hn | ⟨e, he⟩ | ⟨dm', hdm, hsmall⟩
        · exact absurd he (by simp)
        · exact absurd hn (by simp)
        · exact absurd he (by simp)
        · have hdm' : dm = dm' := by injection hdm
          subst hdm'
          simp only [refine_face_depth]
          rw [if_pos hsmall]

/-- Witness for C7: a failing model load on a one-vertex input. -/
theorem c7_refine_face_depth_failure_is_passthrough_witness :
    refine_face_depth [⟨0, 0, 0⟩] 1 (3 / 100) (Except.error "load failed") none
      (Except.error "no prediction") = [⟨0, 0, 0⟩] :=
  c7_refine_face_depth_failure_is_passthrough [⟨0, 0, 0⟩] 1 (3 / 100)
    (Except.error "load failed") none (Except.error "no prediction")
    (Or.inl ⟨"load failed", rfl⟩)

/- ────────────────────────────────────────────────────────────────────────
   C6 : edge-length filter
   ──────────────────────────────────────────────────────────────────────── -/

/-- Full behaviour of `filter_large_triangles` on index-valid faces
(shared between the triangulation claims): it succeeds, returns a subset
of the input that is nonempty whenever the input is, keeps only passing
triangles when any triangle passes, and returns the input unchanged when
none passes. -/
theorem filter_large_triangles_spec (verts : List Pt)
    (faces : List Tri) (max_edge : ℚ)
    (hvalid : ∀ f ∈ faces, validTri verts.length f = true) :
    ∃ out, filter_large_triangles verts faces max_edge = some out ∧
      (∀ f ∈ out, f ∈ faces) ∧
      (faces ≠ [] → out ≠ []) ∧
      ((∃ f ∈ faces, triWithin verts f max_edge = true) →
        ∀ f ∈ out, triWithin verts f max_edge = true) ∧
      ((∀ f ∈ faces, triWithin verts f max_edge = false) → out = faces) := by
  have hall : faces.all (validTri verts.length) = true := List.all_eq_true.mpr hvalid
  by_cases hgood : (faces.filter (fun f => triWithin verts f max_edge)).isEmpty
  · refine ⟨faces, ?_, fun f hf => hf, fun h => h, ?_, fun _ => rfl⟩
    · simp [filter_large_triangles, hall, hgood]
    · rintro ⟨f, hf, hfw⟩
      exact absurd (List.isEmpty_iff.mp hgood)
        (List.ne_nil_of_mem (List.mem_filter.mpr ⟨hf, hfw⟩))
  · refine ⟨faces.filter (fun f => triWithin verts f max_edge), ?_, ?_, ?_, ?_, ?_⟩
    · simp [filter_large_triangles, hall, hgood]
    · intro f hf
      exact (List.mem_filter.mp hf).1
    · intro _
      exact List.isEmpty_iff.not.mp hgood
    · intro _ f hf
      exact (List.mem_filter.mp hf).2
    · intro hnone
      exfalso
      rcases List.exists_cons_of_ne_nil (List.isEmpty_iff.not.mp hgood)
        with ⟨f, fs, hcons⟩
      have hf : f ∈ faces.filter (fun g => triWithin verts g max_edge) := by
        simp [hcons]
      exact absurd (List.mem_filter.mp hf).2 (by simp [hnone _ (List.mem_filter.mp hf).1])

/-- C6 (counterexample): a single triangle with side length 1 against the
threshold `1/10` fails the edge test, yet `filter_large_triangles` returns
it unchanged — the source returns the input faces when no triangle
survives, so triangles whose longest edge exceeds the threshold are not
always discarded. -/
theorem c6_filter_keeps_oversized_when_none_survive :
    filter_large_triangles [⟨0, 0, 0⟩, ⟨1, 0, 0⟩, ⟨0, 1, 0⟩] [(0, 1, 2)] (1 / 10)
      = some [(0, 1, 2)] ∧
    triWithin [⟨0, 0, 0⟩, ⟨1, 0, 0⟩, ⟨0, 1, 0⟩] (0, 1, 2) (1 / 10) = false := by
  have h01 : edgeWithin ⟨0, 0, 0⟩ ⟨1, 0, 0⟩ (1 / 10) = false := by
    simp only [edgeWithin, sqDist, decide_eq_false_iff_not]
    norm_num
  have hw : triWithin [⟨0, 0, 0⟩, ⟨1, 0, 0⟩, ⟨0, 1, 0⟩] (0, 1, 2) (1 / 10) = false := by
    have hdef : triWithin [⟨0, 0, 0⟩, ⟨1, 0, 0⟩, ⟨0, 1, 0⟩] (0, 1, 2) (1 / 10)
        = (edgeWithin ⟨0, 0, 0⟩ ⟨1, 0, 0⟩ (1 / 10) &&
           edgeWithin ⟨1, 0, 0⟩ ⟨0, 1, 0⟩ (1 / 10) &&
           edgeWithin ⟨0, 1, 0⟩ ⟨0, 0, 0⟩ (1 / 10)) := rfl
    rw [hdef, h01]
    simp
  obtain ⟨out, hout, _, _, _, hkeep⟩ :=
    filter_large_triangles_spec [⟨0, 0, 0⟩, ⟨1, 0, 0⟩, ⟨0, 1, 0⟩] [(0, 1, 2)]
      (1 / 10) (by decide)
  have heq : out = [(0, 1, 2)] := by
    refine hkeep ?_
    intro f hf
    have : f = ((0 : Nat), (1 : Nat), (2 : Nat)) := by simpa using hf
    rw [this]
    exact hw
  exact ⟨heq ▸ hout, hw⟩

/-- C6 (amended): for faces whose indices are all valid,
`filter_large_triangles` succeeds, and when at least one triangle passes
the edge test every triangle in the result has all three edges within the
threshold; when no triangle passes, the input faces are returned
unchanged. -/
theorem c6_filter_large_triangles_discards_oversized (verts : List Pt)
    (faces : List Tri) (max_edge : ℚ)
    (hvalid : ∀ f ∈ faces, validTri verts.length f = true) :
    ∃ out, filter_large_triangles verts faces max_edge = some out ∧
      ((∃ f ∈ faces, triWithin verts f max_edge = true) →
        ∀ f ∈ out, triWithin verts f max_edge = true) ∧
      ((∀ f ∈ faces, triWithin verts f max_edge = false) → out = faces) := by
  obtain ⟨out, hout, _, _, hpass, hkeep⟩ :=
    filter_large_triangles_spec verts faces max_edge hvalid
  exact ⟨out, hout, hpass, hkeep⟩

/-- Witness for C6 at a concrete valid input whose triangle passes. -/
theorem c6_filter_large_triangles_discards_oversized_witness :
    ∃ out, filter_large_triangles [⟨0, 0, 0⟩, ⟨1, 0, 0⟩, ⟨0, 1, 0⟩] [(0, 1, 2)] 2
      = some out ∧
      ((∃ f ∈ [(0, 1, 2)], triWithin [⟨0, 0, 0⟩, ⟨1, 0, 0⟩, ⟨0, 1, 0⟩] f 2 = true) →
        ∀ f ∈ out, triWithin [⟨0, 0, 0⟩, ⟨1, 0, 0⟩, ⟨0, 1, 0⟩] f 2 = true) ∧
      ((∀ f ∈ [(0, 1, 2)], triWithin [⟨0, 0, 0⟩, ⟨1, 0, 0⟩, ⟨0, 1, 0⟩] f 2 = false) →
        out = [(0, 1, 2)]) :=
  c6_filter_large_triangles_discards_oversized [⟨0, 0, 0⟩, ⟨1, 0, 0⟩, ⟨0, 1, 0⟩]
    [(0, 1, 2)] 2 (by decide)

/- ────────────────────────────────────────────────────────────────────────
   C5 : triangulation totality and index validity
   ──────────────────────────────────────────────────────────────────────── -/

/-- C5 (counterexample): with a tessellation topology present whose edges
reference landmark index 3, `triangulate_face` on a 3-point input raises
(`none`): `filter_large_triangles` indexes the vertex array with the
out-of-range tessellation index.  The real MediaPipe tessellation
references indices up to 477, so any input with fewer than 478 points hits
this same path; no triangle with indices below the point count is
returned. -/
theorem c5_triangulate_face_crashes_on_small_input :
    3 ≤ ([⟨0, 0, 0⟩, ⟨1, 0, 0⟩, ⟨0, 1, 0⟩] : List Pt).length ∧
    triangulate_face (some [(0, 3), (1, 3), (0, 1)])
      [⟨0, 0, 0⟩, ⟨1, 0, 0⟩, ⟨0, 1, 0⟩] [] = none := by
  decide

/-- C5 (amended): when the tessellation topology is unavailable and the
Delaunay fallback yields at least one triangle with all indices below the
point count (scipy's guarantee on non-degenerate input),
`triangulate_face` returns at least one triangle and every index of every
returned triangle is below the point count. -/
theorem c5_triangulate_face_delaunay_valid (face_points : List Pt)
    (delaunayFaces : List Tri) (_hpts : 3 ≤ face_points.length)
    (hne : delaunayFaces ≠ [])
    (hvalid : ∀ f ∈ delaunayFaces, validTri face_points.length f = true) :
    ∃ out, triangulate_face none face_points delaunayFaces = some out ∧
      out ≠ [] ∧ ∀ f ∈ out, validTri face_points.length f = true := by
  obtain ⟨out, hout, hsub, hnonempty, _, _⟩ :=
    filter_large_triangles_spec face_points delaunayFaces (8 / 100) hvalid
  exact ⟨out, hout, hnonempty hne, fun f hf => hvalid f (hsub f hf)⟩

/-- Witness for C5 at a concrete 3-point input whose Delaunay result is a
single valid triangle. -/
theorem c5_triangulate_face_delaunay_valid_witness :
    ∃ out, triangulate_face none [⟨0, 0, 0⟩, ⟨1, 0, 0⟩, ⟨0, 1, 0⟩] [(0, 1, 2)]
      = some out ∧ out ≠ [] ∧
      ∀ f ∈ out, validTri ([⟨0, 0, 0⟩, ⟨1, 0, 0⟩, ⟨0, 1, 0⟩] : List Pt).length f
        = true :=
  c5_triangulate_face_delaunay_valid [⟨0, 0, 0⟩, ⟨1, 0, 0⟩, ⟨0, 1, 0⟩]
    [(0, 1, 2)] (by decide) (List.cons_ne_nil _ _) (by decide)

/- ────────────────────────────────────────────────────────────────────────
   Skinning-weight lemmas (shared between C3 and C10)
   ──────────────────────────────────────────────────────────────────────── -/

theorem invDist_pos (q : ℚ) : 0 < invDist q := by
  unfold invDist
  exact div_pos one_pos (lt_of_lt_of_le (by norm_num) (le_max_right _ _))

theorem closest_nodup (nb : Nat) (d : Nat → ℚ) (k : Nat) :
    ((argsortIdx nb d).take k).Nodup :=
  List.Nodup.sublist (List.take_sublist k _)
    ((argsortIdx_perm nb d).symm.nodup (List.nodup_range nb))

theorem closest_mem_lt (nb : Nat) (d : Nat → ℚ) (k : Nat) :
    ∀ j ∈ (argsortIdx nb d).take k, j < nb := by
  intro j hj
  have : j ∈ argsortIdx nb d := List.mem_of_mem_take hj
  simpa using (argsortIdx_perm nb d).mem_iff.mp this

theorem closest_length (nb : Nat) (d : Nat → ℚ) (k : Nat) :
    ((argsortIdx nb d).take k).length = min k nb := by
  rw [List.length_take, (argsortIdx_perm nb d).length_eq, List.length_range]

/-- Counting the members of a nodup list among `List.range nb` gives its
length when all members are below `nb`. -/
theorem countP_mem_range (C : List Nat) (nb : Nat) (hnd : C.Nodup)
    (hlt : ∀ j ∈ C, j < nb) :
    (List.range nb).countP (fun j => decide (j ∈ C)) = C.length := by
  rw [List.countP_eq_length_filter]
  have hnodupf : ((List.range nb).filter (fun j => decide (j ∈ C))).Nodup :=
    (List.nodup_range nb).filter _
  have hto : ((List.range nb).filter (fun j => decide (j ∈ C))).toFinset
      = C.toFinset := by
    ext x
    simp only [List.mem_toFinset, List.mem_filter, List.mem_range,
      decide_eq_true_eq]
    exact ⟨fun h => h.2, fun h => ⟨hlt x h, h⟩⟩
  calc ((List.range nb).filter (fun j => decide (j ∈ C))).length
      = ((List.range nb).filter (fun j => decide (j ∈ C))).toFinset.card :=
        (List.toFinset_card_of_nodup hnodupf).symm
    _ = C.toFinset.card := by rw [hto]
    _ = C.length := List.toFinset_card_of_nodup hnd

/-- Sum of the indicator-written weight row over the selected index set. -/
theorem sum_range_ite_mem (nb : Nat) (C : List Nat) (g : Nat → ℚ)
    (hnd : C.Nodup) (hlt : ∀ j ∈ C, j < nb) :
    ((List.range nb).map (fun j => if j ∈ C then g j else 0)).sum
      = (C.map g).sum := by
  rw [sum_range_map]
  have h1 : ∀ i, (if i ∈ C then g i else 0) = (if i ∈ C.toFinset then g i else 0) := by
    intro i
    simp [List.mem_toFinset]
  simp only [h1]
  rw [Finset.sum_ite_mem]
  have hinter : Finset.range nb ∩ C.toFinset = C.toFinset := by
    apply Finset.inter_eq_right.mpr
    intro x hx
    exact Finset.mem_range.mpr (hlt x (List.mem_toFinset.mp hx))
  rw [hinter, List.sum_toFinset _ hnd]

theorem skinRow_total_pos (nb : Nat) (d : Nat → ℚ) (k : Nat)
    (hnb : 1 ≤ nb) (hk : 1 ≤ k) :
    0 < (((argsortIdx nb d).take k).map (fun j => invDist (d j))).sum := by
  have hlen : ((argsortIdx nb d).take k).length = min k nb :=
    closest_length nb d k
  have hpos : 0 < ((argsortIdx nb d).take k).length := by
    rw [hlen]
    exact lt_of_lt_of_le Nat.zero_lt_one (le_min hk hnb)
  have hne : ((argsortIdx nb d).take k).map (fun j => invDist (d j)) ≠ [] := by
    intro h
    rw [List.map_eq_nil_iff] at h
    rw [h] at hpos
    simp at hpos
  exact List.sum_pos _ (by
    intro w hw
    obtain ⟨j, _, rfl⟩ := List.mem_map.mp hw
    exact invDist_pos _) hne

theorem skinRow_nonneg (nb : Nat) (d : Nat → ℚ) (k : Nat) :
    ∀ w ∈ skinRow nb d k, 0 ≤ w := by
  intro w hw
  simp only [skinRow] at hw
  split at hw
  · obtain ⟨j, _, rfl⟩ := List.mem_map.mp hw
    split
    · exact div_nonneg (le_of_lt (invDist_pos _)) (by linarith)
    · exact le_refl 0
  · obtain ⟨j, _, rfl⟩ := List.mem_map.mp hw
    exact le_refl 0

theorem skinRow_countP_ne_le (nb : Nat) (d : Nat → ℚ) (k : Nat) :
    (skinRow nb d k).countP (fun w => decide (w ≠ 0)) ≤ k := by
  simp only [skinRow]
  split
  · rw [List.countP_map]
    have hle : (List.range nb).countP
        ((fun w => decide (w ≠ 0)) ∘ (fun j =>
          if j ∈ (argsortIdx nb d).take k then
            invDist (d j) / (((argsortIdx nb d).take k).map (fun j => invDist (d j))).sum
          else 0))
        ≤ (List.range nb).countP (fun j => decide (j ∈ (argsortIdx nb d).take k)) := by
      apply List.countP_mono_left
      intro j _ hj
      simp only [Function.comp_apply, decide_eq_true_eq] at hj
      by_contra hmem
      simp only [decide_eq_true_eq] at hmem
      rw [if_neg hmem] at hj
      exact hj rfl
    refine le_trans hle ?_
    rw [countP_mem_range _ nb (closest_nodup nb d k) (closest_mem_lt nb d k)]
    rw [closest_length]
    omega
  · rw [List.countP_map]
    have h0 : List.countP ((fun w => decide (w ≠ 0)) ∘ (fun _ : Nat => (0 : ℚ)))
        (List.range nb) = 0 := by
      apply List.countP_eq_zero.mpr
      intro a _
      simp
    rw [h0]
    exact Nat.zero_le k

theorem skinRow_sum_eq_one (nb : Nat) (d : Nat → ℚ) (k : Nat)
    (hnb : 1 ≤ nb) (hk : 1 ≤ k) : (skinRow nb d k).sum = 1 := by
  have htot := skinRow_total_pos nb d k hnb hk
  simp only [skinRow]
  rw [if_pos htot]
  rw [sum_range_ite_mem nb _ _ (closest_nodup nb d k) (closest_mem_lt nb d k)]
  rw [sum_map_div]
  exact div_self (ne_of_gt htot)

theorem skinRow_countP_pos_eq (nb : Nat) (d : Nat → ℚ) (h4 : 4 ≤ nb) :
    (skinRow nb d 4).countP (fun w => decide (0 < w)) = 4 := by
  have htot := skinRow_total_pos nb d 4 (by omega) (by norm_num)
  simp only [skinRow]
  rw [if_pos htot]
  rw [List.countP_map]
  have hcongr : ∀ j ∈ List.range nb,
      (((fun w => decide (0 < w)) ∘ (fun j =>
        if j ∈ (argsortIdx nb d).take 4 then
          invDist (d j) / (((argsortIdx nb d).take 4).map (fun j => invDist (d j))).sum
        else 0)) j = true
      ↔ (fun j => decide (j ∈ (argsortIdx nb d).take 4)) j = true) := by
    intro j _
    simp only [Function.comp_apply, decide_eq_true_eq]
    by_cases hmem : j ∈ (argsortIdx nb d).take 4
    · rw [if_pos hmem]
      exact ⟨fun _ => hmem, fun _ => div_pos (invDist_pos _) htot⟩
    · rw [if_neg hmem]
      exact ⟨fun h => absurd h (lt_irrefl 0), fun h => absurd h hmem⟩
  rw [List.countP_congr hcongr]
  rw [countP_mem_range _ nb (closest_nodup nb d 4) (closest_mem_lt nb d 4)]
  rw [closest_length]
  omega

/-- The weight row of vertex `v` produced by `compute_skinning_weights`. -/
theorem compute_row (vertices bonePositions : List Pt) (dist : Pt → Pt → ℚ)
    (v : Nat) (hv : v < vertices.length) :
    (compute_skinning_weights vertices bonePositions dist).getD v []
      = skinRow bonePositions.length
        (fun j => dist (vertices.getD v default) (bonePositions.getD j default)) 4 := by
  unfold compute_skinning_weights
  rw [List.getD_eq_getElem?_getD, List.getElem?_map, List.getElem?_eq_getElem hv]
  simp only [Option.map_some', Option.getD_some]
  rw [List.getD_eq_getElem vertices default hv]

/- ────────────────────────────────────────────────────────────────────────
   C3 : weight rows are normalized partitions of unity
   ──────────────────────────────────────────────────────────────────────── -/

/-- C3: for every vertex of every mesh and every nonempty bone set, the
weight row returned by `compute_skinning_weights` — and likewise the
4-entry truncated, renormalized row packed by `build_rigged_gltf` — is
componentwise nonnegative, has at most 4 nonzero entries, and either sums
to 1 within tolerance `1/10000` or is all zero.  The theorem holds for
every distance assignment `dist`, in particular the source's Euclidean
one. -/
theorem c3_weight_rows_normalized (vertices bonePositions : List Pt)
    (dist : Pt → Pt → ℚ) (v : Nat) (hb : bonePositions ≠ [])
    (hv : v < vertices.length) :
    (∀ w ∈ (compute_skinning_weights vertices bonePositions dist).getD v [], 0 ≤ w) ∧
    ((compute_skinning_weights vertices bonePositions dist).getD v []).countP
      (fun w => decide (w ≠ 0)) ≤ 4 ∧
    (|((compute_skinning_weights vertices bonePositions dist).getD v []).sum - 1|
        ≤ 1 / 10000 ∨
      ∀ w ∈ (compute_skinning_weights vertices bonePositions dist).getD v [], w = 0) ∧
    (∀ w ∈ jointWeightsRow
      ((compute_skinning_weights vertices bonePositions dist).getD v []), 0 ≤ w) ∧
    (jointWeightsRow
      ((compute_skinning_weights vertices bonePositions dist).getD v [])).countP
      (fun w => decide (w ≠ 0)) ≤ 4 ∧
    (|(jointWeightsRow
        ((compute_skinning_weights vertices bonePositions dist).getD v [])).sum - 1|
        ≤ 1 / 10000 ∨
      ∀ w ∈ jointWeightsRow
        ((compute_skinning_weights vertices bonePositions dist).getD v []), w = 0) := by
  rw [compute_row vertices bonePositions dist v hv]
  have hnb : 1 ≤ bonePositions.length := List.length_pos.mpr hb
  have hnn := skinRow_nonneg bonePositions.length
    (fun j => dist (vertices.getD v default) (bonePositions.getD j default)) 4
  refine ⟨hnn, skinRow_countP_ne_le _ _ _, ?_, jwRow_nonneg _ hnn, ?_, ?_⟩
  · left
    rw [skinRow_sum_eq_one _ _ _ hnb (by norm_num)]
    norm_num
  · exact le_trans (List.countP_le_length _) (le_of_eq (jwRow_length _))
  · rcases jwRow_sum _ hnn with h | h
    · left
      rw [h]
      norm_num
    · right
      exact h

/-- Witness for C3 at a one-vertex mesh with one bone. -/
theorem c3_weight_rows_normalized_witness :
    (∀ w ∈ (compute_skinning_weights [⟨0, 0, 0⟩] [⟨1, 0, 0⟩] sqDist).getD 0 [], 0 ≤ w) ∧
    ((compute_skinning_weights [⟨0, 0, 0⟩] [⟨1, 0, 0⟩] sqDist).getD 0 []).countP
      (fun w => decide (w ≠ 0)) ≤ 4 ∧
    (|((compute_skinning_weights [⟨0, 0, 0⟩] [⟨1, 0, 0⟩] sqDist).getD 0 []).sum - 1|
        ≤ 1 / 10000 ∨
      ∀ w ∈ (compute_skinning_weights [⟨0, 0, 0⟩] [⟨1, 0, 0⟩] sqDist).getD 0 [], w = 0) ∧
    (∀ w ∈ jointWeightsRow
      ((compute_skinning_weights [⟨0, 0, 0⟩] [⟨1, 0, 0⟩] sqDist).getD 0 []), 0 ≤ w) ∧
    (jointWeightsRow
      ((compute_skinning_weights [⟨0, 0, 0⟩] [⟨1, 0, 0⟩] sqDist).getD 0 [])).countP
      (fun w => decide (w ≠ 0)) ≤ 4 ∧
    (|(jointWeightsRow
        ((compute_skinning_weights [⟨0, 0, 0⟩] [⟨1, 0, 0⟩] sqDist).getD 0 [])).sum - 1|
        ≤ 1 / 10000 ∨
      ∀ w ∈ jointWeightsRow
        ((compute_skinning_weights [⟨0, 0, 0⟩] [⟨1, 0, 0⟩] sqDist).getD 0 []), w = 0) :=
  c3_weight_rows_normalized [⟨0, 0, 0⟩] [⟨1, 0, 0⟩] sqDist 0
    (List.cons_ne_nil _ _) (by decide)

/- ────────────────────────────────────────────────────────────────────────
   C10 : no vertex is ever left unskinned
   ──────────────────────────────────────────────────────────────────────── -/

/-- C10: for every mesh and every bone set with at least 4 bones,
`compute_skinning_weights` gives every vertex exactly 4 strictly positive
weights (distances are floored at `1/1000000` before inversion, so this
holds for every distance assignment, including a vertex coinciding with a
bone position, i.e. distance zero), and in particular no weight row is all
zero. -/
theorem c10_every_vertex_fully_skinned (vertices bonePositions : List Pt)
    (dist : Pt → Pt → ℚ) (v : Nat) (h4 : 4 ≤ bonePositions.length)
    (hv : v < vertices.length) :
    ((compute_skinning_weights vertices bonePositions dist).getD v []).countP
      (fun w => decide (0 < w)) = 4 ∧
    ¬ (∀ w ∈ (compute_skinning_weights vertices bonePositions dist).getD v [],
        w = 0) := by
  rw [compute_row vertices bonePositions dist v hv]
  refine ⟨skinRow_countP_pos_eq _ _ h4, ?_⟩
  intro hall
  have hpos : 0 < (skinRow bonePositions.length
      (fun j => dist (vertices.getD v default) (bonePositions.getD j default)) 4).countP
      (fun w => decide (0 < w)) := by
    rw [skinRow_countP_pos_eq _ _ h4]
    norm_num
  obtain ⟨w, hw, hw2⟩ := List.countP_pos_iff.mp hpos
  rw [hall w hw] at hw2
  simp at hw2

/-- Witness for C10 at a one-vertex mesh with four bones, one of which
coincides with the vertex. -/
theorem c10_every_vertex_fully_skinned_witness :
    ((compute_skinning_weights [⟨0, 0, 0⟩]
      [⟨0, 0, 0⟩, ⟨1, 0, 0⟩, ⟨0, 1, 0⟩, ⟨0, 0, 1⟩] sqDist).getD 0 []).countP
      (fun w => decide (0 < w)) = 4 ∧
    ¬ (∀ w ∈ (compute_skinning_weights [⟨0, 0, 0⟩]
      [⟨0, 0, 0⟩, ⟨1, 0, 0⟩, ⟨0, 1, 0⟩, ⟨0, 0, 1⟩] sqDist).getD 0 [], w = 0) :=
  c10_every_vertex_fully_skinned [⟨0, 0, 0⟩]
    [⟨0, 0, 0⟩, ⟨1, 0, 0⟩, ⟨0, 1, 0⟩, ⟨0, 0, 1⟩] sqDist 0 (by decide) (by decide)

/- ────────────────────────────────────────────────────────────────────────
   C8 : the back shell stays behind the face's minimum depth
   ──────────────────────────────────────────────────────────────────────── -/

/-- Every grid vertex of the back shell has depth at most the shell centre
depth `bcz`: the ellipsoid term is nonpositive on the sampled half of the
sphere, and the inward flattening only moves depths further back. -/
theorem backShellVertex_z_le (cx cy rx ry rz bcz : ℝ) (lat lon i j : Nat)
    (hrz : 0 ≤ rz) (hi : i ≤ lat) (hj : j ≤ lon) :
    (backShellVertex cx cy rx ry rz bcz lat lon i j).z ≤ bcz := by
  simp only [backShellVertex]
  have hsin_theta : 0 ≤ Real.sin (Real.pi * i / lat) := by
    apply Real.sin_nonneg_of_nonneg_of_le_pi
    · positivity
    · rcases Nat.eq_zero_or_pos lat with h0 | hpos
      · subst h0
        simp [Real.pi_nonneg]
      · rw [div_le_iff₀ (by positivity)]
        exact mul_le_mul_of_nonneg_left (Nat.cast_le.mpr hi) Real.pi_pos.le
  have hsin_phi : Real.sin (Real.pi + Real.pi * j / lon) ≤ 0 := by
    have ht0 : 0 ≤ Real.pi * j / lon := by positivity
    have htpi : Real.pi * j / lon ≤ Real.pi := by
      rcases Nat.eq_zero_or_pos lon with h0 | hpos
      · subst h0
        simp [Real.pi_nonneg]
      · rw [div_le_iff₀ (by positivity)]
        exact mul_le_mul_of_nonneg_left (Nat.cast_le.mpr hj) Real.pi_pos.le
    have hrw : Real.pi + Real.pi * j / lon = Real.pi * j / lon + Real.pi :=
      add_comm _ _
    rw [hrw, Real.sin_add_pi]
    simpa using Real.sin_nonneg_of_nonneg_of_le_pi ht0 htpi
  have hterm : rz * Real.sin (Real.pi * i / lat)
      * Real.sin (Real.pi + Real.pi * j / lon) ≤ 0 :=
    mul_nonpos_of_nonneg_of_nonpos (mul_nonneg hrz hsin_theta) hsin_phi
  split
  · rename_i hlt
    have hT : bcz - rz * (55 / 100) ≤ bcz := by linarith
    linarith
  · linarith

/-- C8: for every nonempty face point set, every vertex emitted by
`generate_back_shell` has z-coordinate at most the minimum z-coordinate of
the input face points: the shell never lies in front of the visible
surface's minimum depth. -/
theorem c8_back_shell_behind_min_depth (face_points : List PtR)
    (resolution : Nat) (_hne : face_points ≠ []) :
    ∀ p ∈ (generate_back_shell face_points resolution).1,
      p.z ≤ listMinR (face_points.map (fun q => q.z)) := by
  intro p hp
  simp only [generate_back_shell] at hp
  rw [List.mem_flatMap] at hp
  obtain ⟨i, hi, hp⟩ := hp
  rw [List.mem_map] at hp
  obtain ⟨j, hj, rfl⟩ := hp
  rw [List.mem_range] at hi
  rw [List.mem_range] at hj
  have hrz : (0 : ℝ) ≤ max ((listMaxR (face_points.map (fun q => q.x)) -
      listMinR (face_points.map (fun q => q.x))) * (55 / 100)) (4 / 100) :=
    le_trans (by norm_num) (le_max_right _ _)
  have hle := backShellVertex_z_le
    (listMeanR (face_points.map (fun q => q.x)))
    (listMeanR (face_points.map (fun q => q.y)))
    (max ((listMaxR (face_points.map (fun q => q.x)) -
      listMinR (face_points.map (fun q => q.x))) * (60 / 100)) (4 / 100))
    (max ((listMaxR (face_points.map (fun q => q.y)) -
      listMinR (face_points.map (fun q => q.y))) * (58 / 100)) (5 / 100))
    (max ((listMaxR (face_points.map (fun q => q.x)) -
      listMinR (face_points.map (fun q => q.x))) * (55 / 100)) (4 / 100))
    (listMinR (face_points.map (fun q => q.z)) -
      (max ((listMaxR (face_points.map (fun q => q.x)) -
        listMinR (face_points.map (fun q => q.x))) * (55 / 100)) (4 / 100)) * (18 / 100))
    (max 8 (resolution / 2)) (max 16 resolution) i j
    hrz (by omega) (by omega)
  refine le_trans hle ?_
  nlinarith [hrz]

/-- The default head of a nonempty list is a member. -/
theorem headD_mem_of_ne_nil (l : List α) (d : α) (h : l ≠ []) :
    l.headD d ∈ l := by
  cases l with
  | nil => exact absurd rfl h
  | cons a as => simp

/-- Witness for C8 at a concrete single-point face, evaluated at the first
emitted shell vertex. -/
theorem c8_back_shell_behind_min_depth_witness :
    ((generate_back_shell [⟨0, 0, 0⟩] 4).1.headD ⟨0, 0, 0⟩).z
      ≤ listMinR (([⟨0, 0, 0⟩] : List PtR).map (fun q => q.z)) := by
  have hnil : (generate_back_shell [⟨0, 0, 0⟩] 4).1.isEmpty = false := rfl
  have hne2 : (generate_back_shell [⟨0, 0, 0⟩] 4).1 ≠ [] := by
    intro h
    rw [h] at hnil
    exact Bool.noConfusion hnil
  exact c8_back_shell_behind_min_depth [⟨0, 0, 0⟩] 4 (List.cons_ne_nil _ _)
    ((generate_back_shell [⟨0, 0, 0⟩] 4).1.headD ⟨0, 0, 0⟩)
    (headD_mem_of_ne_nil _ _ hne2)

/- ────────────────────────────────────────────────────────────────────────
   C9 : cleanup operation order
   ──────────────────────────────────────────────────────────────────────── -/

/-- C9 (amended): `cleanup_mesh` equals applying the cleanup operations in
the order degenerate-triangle removal, duplicate-triangle removal,
unreferenced-vertex removal, vertex merge, normal recomputation — i.e.
the source removes unreferenced vertices before merging, not after. -/
theorem c9_cleanup_mesh_operation_order (m : MeshM) (eps : ℚ) :
    cleanup_mesh m eps
      = fix_normals (merge_vertices (remove_unreferenced_vertices
          (remove_duplicate_faces (remove_degenerate_faces m))) eps) := rfl

/-- C9 (counterexample): on a mesh with one non-degenerate triangle and
one unreferenced vertex lying within merging distance of two of the
triangle's corners, running the operations in the claimed order (merge
before unreferenced-vertex removal) bridges the two corners into one
cluster and leaves 2 vertices, while `cleanup_mesh` (which removes the
unreferenced vertex first) leaves all 3 corners — so `cleanup_mesh` does
not equal the claimed composition. -/
theorem c9_cleanup_order_differs :
    (cleanup_mesh ⟨[⟨0, 0, 0⟩, ⟨2, 0, 0⟩, ⟨0, 2, 0⟩, ⟨1, 0, 0⟩], [(0, 1, 2)], []⟩
      (3 / 2)).verts.length = 3 ∧
    (cleanup_spec_order ⟨[⟨0, 0, 0⟩, ⟨2, 0, 0⟩, ⟨0, 2, 0⟩, ⟨1, 0, 0⟩], [(0, 1, 2)], []⟩
      (3 / 2)).verts.length = 2 ∧
    cleanup_mesh ⟨[⟨0, 0, 0⟩, ⟨2, 0, 0⟩, ⟨0, 2, 0⟩, ⟨1, 0, 0⟩], [(0, 1, 2)], []⟩ (3 / 2)
      ≠ cleanup_spec_order ⟨[⟨0, 0, 0⟩, ⟨2, 0, 0⟩, ⟨0, 2, 0⟩, ⟨1, 0, 0⟩], [(0, 1, 2)], []⟩
          (3 / 2) := by
  have hdeg : remove_degenerate_faces
      ⟨[⟨0, 0, 0⟩, ⟨2, 0, 0⟩, ⟨0, 2, 0⟩, ⟨1, 0, 0⟩], [(0, 1, 2)], []⟩
      = ⟨[⟨0, 0, 0⟩, ⟨2, 0, 0⟩, ⟨0, 2, 0⟩, ⟨1, 0, 0⟩], [(0, 1, 2)], []⟩ := by
    norm_num [remove_degenerate_faces, triCross, List.filter, Pt.mk.injEq]
  have hdup : remove_duplicate_faces
      ⟨[⟨0, 0, 0⟩, ⟨2, 0, 0⟩, ⟨0, 2, 0⟩, ⟨1, 0, 0⟩], [(0, 1, 2)], []⟩
      = ⟨[⟨0, 0, 0⟩, ⟨2, 0, 0⟩, ⟨0, 2, 0⟩, ⟨1, 0, 0⟩], [(0, 1, 2)], []⟩ := by
    norm_num [remove_duplicate_faces, dedupByKey]
  have hunref : remove_unreferenced_vertices
      ⟨[⟨0, 0, 0⟩, ⟨2, 0, 0⟩, ⟨0, 2, 0⟩, ⟨1, 0, 0⟩], [(0, 1, 2)], []⟩
      = ⟨[⟨0, 0, 0⟩, ⟨2, 0, 0⟩, ⟨0, 2, 0⟩], [(0, 1, 2)], []⟩ := by
    norm_num [remove_unreferenced_vertices, List.range, List.range.loop,
      List.filter, List.flatMap, List.indexOf, List.findIdx, List.findIdx.go]
    all_goals decide
  have hmerge3 : merge_vertices
      ⟨[⟨0, 0, 0⟩, ⟨2, 0, 0⟩, ⟨0, 2, 0⟩], [(0, 1, 2)], []⟩ (3 / 2)
      = ⟨[⟨0, 0, 0⟩, ⟨2, 0, 0⟩, ⟨0, 2, 0⟩], [(0, 1, 2)], []⟩ := by
    norm_num [merge_vertices, mergeRep, linkedFuel, withinEps, sqDist,
      List.range, List.range.loop, List.filter, List.find?, List.any,
      List.indexOf, List.findIdx, List.findIdx.go, Pt.mk.injEq]
    all_goals decide
  have hmerge4 : merge_vertices
      ⟨[⟨0, 0, 0⟩, ⟨2, 0, 0⟩, ⟨0, 2, 0⟩, ⟨1, 0, 0⟩], [(0, 1, 2)], []⟩ (3 / 2)
      = ⟨[⟨0, 0, 0⟩, ⟨0, 2, 0⟩], [(0, 0, 1)], []⟩ := by
    norm_num [merge_vertices, mergeRep, linkedFuel, withinEps, sqDist,
      List.range, List.range.loop, List.filter, List.find?, List.any,
      List.indexOf, List.findIdx, List.findIdx.go, Pt.mk.injEq]
    all_goals decide
  have hunref2 : remove_unreferenced_vertices
      ⟨[⟨0, 0, 0⟩, ⟨0, 2, 0⟩], [(0, 0, 1)], []⟩
      = ⟨[⟨0, 0, 0⟩, ⟨0, 2, 0⟩], [(0, 0, 1)], []⟩ := by
    norm_num [remove_unreferenced_vertices, List.range, List.range.loop,
      List.filter, List.flatMap, List.indexOf, List.findIdx, List.findIdx.go]
    all_goals decide
  have hcode : cleanup_mesh
      ⟨[⟨0, 0, 0⟩, ⟨2, 0, 0⟩, ⟨0, 2, 0⟩, ⟨1, 0, 0⟩], [(0, 1, 2)], []⟩ (3 / 2)
      = fix_normals ⟨[⟨0, 0, 0⟩, ⟨2, 0, 0⟩, ⟨0, 2, 0⟩], [(0, 1, 2)], []⟩ := by
    unfold cleanup_mesh
    rw [hdeg, hdup, hunref, hmerge3]
  have hspec : cleanup_spec_order
      ⟨[⟨0, 0, 0⟩, ⟨2, 0, 0⟩, ⟨0, 2, 0⟩, ⟨1, 0, 0⟩], [(0, 1, 2)], []⟩ (3 / 2)
      = fix_normals ⟨[⟨0, 0, 0⟩, ⟨0, 2, 0⟩], [(0, 0, 1)], []⟩ := by
    unfold cleanup_spec_order
    rw [hdeg, hdup, hmerge4, hunref2]
  refine ⟨?_, ?_, ?_⟩
  · rw [hcode]
    rfl
  · rw [hspec]
    rfl
  · rw [hcode, hspec]
    intro h
    have := congrArg (fun mm => mm.verts.length) h
    simp [fix_normals] at this

end DoppelFlex
